import Mathlib

/-!
Shallow embedding of the eighth-period signup engine from
`intranet/apps/eighth/models.py`: the data model (rooms, activities, blocks,
scheduled activities, signups), the block-graph queries
(`get_first_upcoming_block`, `next_blocks`, `previous_blocks`), capacity
resolution (`EighthActivity.capacity`, `get_true_capacity`, `is_full`) and the
signup admission controller (`EighthScheduledActivity.add_user`), followed by
theorems settling the specification claims about them.

Conventions of the embedding:
* The database is a `Store`: a list of `EighthSignup` rows plus a fresh-id
  counter; blocks live in a separate list when a query ranges over them.
* Django model instances become structures; foreign keys are embedded values
  (blocks are unique by `(date, block_letter)`, activities by `name`, so value
  equality matches row identity on well-formed data); `EighthSignup` and
  `EighthScheduledActivity` carry an explicit primary key `id` because the
  controller mutates rows in place.
* Dates are day numbers (`Int`), clock readings are `DateTime` records; a
  Django `DateField` compared against a datetime is compared as midnight of
  that date, as in SQL.
* Raised exceptions become an `Option SignupError` result paired with the
  (possibly updated) store; a failure returns the store unchanged, mirroring
  the fact that every `raise` in `add_user` happens before any write.
-/

/-- A wall-clock reading: day number plus local time of day.  Seconds and
finer resolution are absorbed into `minute` (no claim distinguishes them). -/
structure DateTime where
  day : Int
  hour : Nat
  minute : Nat
  deriving Repr, DecidableEq

/-- Strict comparison of two clock readings (lexicographic on day, hour,
minute), Python `datetime` `<`. -/
def DateTime.ltb (a b : DateTime) : Bool :=
  decide (a.day < b.day) ||
    (decide (a.day = b.day) &&
      (decide (a.hour < b.hour) ||
        (decide (a.hour = b.hour) && decide (a.minute < b.minute))))

/-- Midnight at the start of day `d` (Python
`datetime.combine(d, time(0, 0, 0))`). -/
def DateTime.midnight (d : Int) : DateTime := ⟨d, 0, 0⟩

/-- `EighthRoom`: a room with a signed capacity (the Django field defaults
to `-1`). -/
structure EighthRoom where
  name : String
  capacity : Int
  deriving Repr, DecidableEq

/-- The default of the `capacity` column of `EighthRoom`
(`models.SmallIntegerField(default=-1)`). -/
def EighthRoom.default_capacity : Int := -1

/-- `EighthActivity`: an activity with its room list and policy flags. -/
structure EighthActivity where
  name : String
  rooms : List EighthRoom
  restricted : Bool
  presign : Bool
  one_a_day : Bool
  both_blocks : Bool
  sticky : Bool
  special : Bool
  deleted : Bool
  deriving Repr, DecidableEq

/-- `EighthActivity.capacity`: `-1` when no rooms are assigned, otherwise the
running sum `capacity += room.capacity` over all assigned rooms. -/
def EighthActivity.capacity (a : EighthActivity) : Int :=
  if a.rooms.length = 0 then -1
  else a.rooms.foldl (fun acc room => acc + room.capacity) 0

/-- `EighthBlock`: a block identified by `(date, block_letter)` with a
`locked` flag.  The letter is a single character (`CharField(max_length=1)`). -/
structure EighthBlock where
  date : Int
  block_letter : Char
  locked : Bool
  deriving Repr, DecidableEq

/-- The `order_by("date", "block_letter")` order on blocks: lexicographic
(date, letter), non-strict. -/
def EighthBlock.le (a b : EighthBlock) : Prop :=
  a.date < b.date ∨ (a.date = b.date ∧ a.block_letter ≤ b.block_letter)

instance : DecidableRel EighthBlock.le := fun a b => by
  unfold EighthBlock.le; infer_instance

instance : IsTotal EighthBlock EighthBlock.le where
  total a b := by
    unfold EighthBlock.le
    rcases lt_trichotomy a.date b.date with h | h | h
    · exact Or.inl (Or.inl h)
    · rcases le_total a.block_letter b.block_letter with hl | hl
      · exact Or.inl (Or.inr ⟨h, hl⟩)
      · exact Or.inr (Or.inr ⟨h.symm, hl⟩)
    · exact Or.inr (Or.inl h)

instance : IsTrans EighthBlock EighthBlock.le where
  trans a b c hab hbc := by
    unfold EighthBlock.le at hab hbc ⊢
    rcases hab with h | ⟨h, hl⟩ <;> rcases hbc with h2 | ⟨h2, hl2⟩
    · exact Or.inl (h.trans h2)
    · exact Or.inl (h2 ▸ h)
    · exact Or.inl (h ▸ h2)
    · exact Or.inr ⟨h.trans h2, hl.trans hl2⟩

/-- The `order_by("-date", "-block_letter")` order on blocks (descending). -/
def EighthBlock.ge (a b : EighthBlock) : Prop := EighthBlock.le b a

instance : DecidableRel EighthBlock.ge := fun a b => by
  unfold EighthBlock.ge; infer_instance

instance : IsTotal EighthBlock EighthBlock.ge where
  total a b := by
    unfold EighthBlock.ge
    exact (IsTotal.total (r := EighthBlock.le) b a).imp id id

instance : IsTrans EighthBlock EighthBlock.ge where
  trans a b c hab hbc := by
    unfold EighthBlock.ge at hab hbc ⊢
    exact IsTrans.trans (r := EighthBlock.le) c b a hbc hab

/-- The filter of `EighthBlock.next_blocks`:
`date > self.date OR (date = self.date AND block_letter > self.block_letter)`. -/
def EighthBlock.strictly_after (self b : EighthBlock) : Bool :=
  decide (self.date < b.date) ||
    (decide (b.date = self.date) && decide (self.block_letter < b.block_letter))

/-- The filter of `EighthBlock.previous_blocks`:
`date < self.date OR (date = self.date AND block_letter < self.block_letter)`. -/
def EighthBlock.strictly_before (self b : EighthBlock) : Bool :=
  decide (b.date < self.date) ||
    (decide (b.date = self.date) && decide (b.block_letter < self.block_letter))

/-- `EighthBlock.next_blocks(quantity=-1)` over the block table `db`: the
blocks strictly after `self`, ordered by `(date, block_letter)`; Python slices
the ordered queryset to `blocks[:quantity + 1]` unless `quantity == -1`. -/
def EighthBlock.next_blocks (db : List EighthBlock) (self : EighthBlock)
    (quantity : Int) : List EighthBlock :=
  let blocks := (db.filter self.strictly_after).insertionSort EighthBlock.le
  if quantity = -1 then blocks
  else blocks.take (quantity + 1).toNat

/-- `EighthBlock.previous_blocks(quantity=-1)` over the block table `db`: the
blocks strictly before `self`, ordered descending, sliced to
`blocks[:quantity + 1]` unless `quantity == -1`, then `reversed`. -/
def EighthBlock.previous_blocks (db : List EighthBlock) (self : EighthBlock)
    (quantity : Int) : List EighthBlock :=
  let blocks := (db.filter self.strictly_before).insertionSort EighthBlock.ge
  if quantity = -1 then blocks.reverse
  else (blocks.take (quantity + 1).toNat).reverse

/-- The Django lookup `date__gte=now` on a `DateField`: the ORM prepares
the lookup value with `DateField.get_prep_value`, whose `to_python`
truncates a `datetime` to its `.date()`, so the comparison performed is
`d >= now.date()` — the time of day of `now` never reaches the query. -/
def date_gte (d : Int) (now : DateTime) : Bool :=
  decide (now.day ≤ d)

/-- `EighthBlockManager.get_first_upcoming_block`: `now` is floored to
midnight when its hour is before 17, then the first block of the
`(date, block_letter)`-ordered table with `date__gte=now` is returned
(`None` when the filtered queryset is empty).  The floor changes only the
time-of-day fields, which the `DateField` lookup discards. -/
def get_first_upcoming_block (db : List EighthBlock) (now : DateTime) :
    Option EighthBlock :=
  let now := if now.hour < 17 then { now with hour := 0, minute := 0 } else now
  let blocks :=
    ((db.filter (fun b => date_gte b.date now)).insertionSort EighthBlock.le)
  blocks.head?

/-- `EighthScheduledActivity`: an activity scheduled into a block, carrying
the numeric capacity override (`null` ⇒ inherit) and the `cancelled` flag.
`id` is the primary key (foreign keys compare rows by primary key). -/
structure EighthScheduledActivity where
  id : Nat
  block : EighthBlock
  activity : EighthActivity
  capacity : Option Int
  cancelled : Bool
  deriving Repr, DecidableEq

/-- `EighthSignup`: a signup row linking a user (by id) to a scheduled
activity, with its own primary key `id`. -/
structure EighthSignup where
  id : Nat
  user : Nat
  scheduled_activity : EighthScheduledActivity
  after_deadline : Bool
  deriving Repr, DecidableEq

/-- The signup table (`EighthSignup.objects`) together with the
auto-increment primary-key counter. -/
structure Store where
  signups : List EighthSignup
  next_id : Nat
  deriving Repr, DecidableEq

/-- The empty signup store. -/
def Store.empty : Store := ⟨[], 0⟩

/-- `self.eighthsignup_set`: the signup rows whose `scheduled_activity`
foreign key references `sa`. -/
def eighthsignup_set (st : Store) (sa : EighthScheduledActivity) :
    List EighthSignup :=
  st.signups.filter (fun s => decide (s.scheduled_activity.id = sa.id))

/-- `EighthScheduledActivity.get_true_capacity`: the occurrence's capacity
override when set, else `EighthActivity.capacity`. -/
def get_true_capacity (sa : EighthScheduledActivity) : Int :=
  match sa.capacity with
  | some c => c
  | none => sa.activity.capacity

/-- `EighthScheduledActivity.is_full`: when the true capacity is not `-1`,
whether `eighthsignup_set.count() >= capacity`; else `False`. -/
def is_full (st : Store) (sa : EighthScheduledActivity) : Bool :=
  let capacity := get_true_capacity sa
  if capacity ≠ -1 then
    let num_signed_up := (eighthsignup_set st sa).length
    decide ((num_signed_up : Int) ≥ capacity)
  else false

/-- `EighthScheduledActivity.is_too_early_to_signup`:
`now < combine(block.date, 00:00) - 2 days`. -/
def is_too_early_to_signup (sa : EighthScheduledActivity) (now : DateTime) :
    Bool :=
  let activity_date := DateTime.midnight sa.block.date
  DateTime.ltb now
    ⟨activity_date.day - 2, activity_date.hour, activity_date.minute⟩

/-- The part of an HTTP request `add_user` looks at: `request.user` (as a
user id), `request.user.is_eighth_admin`, and whether `"force"` is in
`request.GET`. -/
structure Request where
  user : Nat
  is_eighth_admin : Bool
  force_param : Bool
  deriving Repr, DecidableEq

/-- The exceptions `add_user` can raise (module `eighth.exceptions`), plus
Django's `MultipleObjectsReturned`, which `.get(...)` raises when several
rows match and which `add_user` does not catch. -/
inductive SignupError where
  | signupForbidden
  | blockLocked
  | scheduledActivityCancelled
  | activityDeleted
  | activityFull
  | presign
  | sticky
  | oneADay
  | multipleObjectsReturned
  deriving Repr, DecidableEq

/-- The force escalation at the top of `add_user`:
`force = force or (("force" in request.GET) and request.user.is_eighth_admin)`
when a request is present. -/
def effective_force (request : Option Request) (force : Bool) : Bool :=
  match request with
  | some r => force || (r.force_param && r.is_eighth_admin)
  | none => force

/-- The stickie test of `add_user`:
`self.eighthsignup_set.filter(user=user, scheduled_activity__activity__sticky=True).count() != 0`.
Note the base queryset is `self.eighthsignup_set` — only signups already
referencing the requested occurrence itself are examined. -/
def in_a_stickie (st : Store) (sa : EighthScheduledActivity) (user : Nat) :
    Bool :=
  decide (((eighthsignup_set st sa).filter
    (fun s => decide (s.user = user) &&
      s.scheduled_activity.activity.sticky)).length ≠ 0)

/-- The one-a-day test of `add_user`:
`self.eighthsignup_set.exclude(scheduled_activity__block=self.block).filter(user=user, scheduled_activity__block__date=self.block.date, scheduled_activity__activity=self.activity).count() != 0`.
Again the base queryset is `self.eighthsignup_set`. -/
def in_act (st : Store) (sa : EighthScheduledActivity) (user : Nat) : Bool :=
  decide ((((eighthsignup_set st sa).filter
    (fun s => ! decide (s.scheduled_activity.block = sa.block))).filter
    (fun s => decide (s.user = user) &&
      decide (s.scheduled_activity.block.date = sa.block.date) &&
      decide (s.scheduled_activity.activity = sa.activity))).length ≠ 0)

/-- The permission test of `add_user`: a request is present and
`user != request.user and not request.user.is_eighth_admin`. -/
def permission_denied (user : Nat) (request : Option Request) : Bool :=
  match request with
  | some r => decide (user ≠ r.user) && ! r.is_eighth_admin
  | none => false

/-- The `if not force:` rule chain of `add_user`, in source order; returns
the first exception raised, `none` when every check passes. -/
def signup_checks (st : Store) (sa : EighthScheduledActivity) (user : Nat)
    (request : Option Request) (now : DateTime) : Option SignupError :=
  if permission_denied user request then some .signupForbidden
  else if sa.block.locked then some .blockLocked
  else if sa.cancelled then some .scheduledActivityCancelled
  else if sa.activity.deleted then some .activityDeleted
  else if is_full st sa then some .activityFull
  else if sa.activity.presign && is_too_early_to_signup sa now then
    some .presign
  else if in_a_stickie st sa user then some .sticky
  else if sa.activity.one_a_day && in_act st sa user then some .oneADay
  else none

/-- The queryset behind
`EighthSignup.objects.get(user=user, scheduled_activity__block=self.block)`:
all signup rows of `user` whose occurrence lies in `block`. -/
def signups_in_block (st : Store) (user : Nat) (block : EighthBlock) :
    List EighthSignup :=
  st.signups.filter (fun s => decide (s.user = user) &&
    decide (s.scheduled_activity.block = block))

/-- The final step of `add_user`: `.get` the user's signup in this block and
repoint it at `self`, or on `DoesNotExist` create a fresh signup; `.get`
raises `MultipleObjectsReturned` (uncaught) when several rows match. -/
def complete_signup (st : Store) (sa : EighthScheduledActivity) (user : Nat) :
    Option SignupError × Store :=
  match signups_in_block st user sa.block with
  | [] =>
      (none, ⟨st.signups ++ [⟨st.next_id, user, sa, false⟩], st.next_id + 1⟩)
  | [existing_signup] =>
      (none, ⟨st.signups.map (fun t =>
          if t.id = existing_signup.id then { t with scheduled_activity := sa }
          else t),
        st.next_id⟩)
  | _ => (some .multipleObjectsReturned, st)

/-- `EighthScheduledActivity.add_user(user, request=None, force=False)` as a
pure transition on the signup store: the possibly escalated force flag is
computed, the rule chain runs unless force is set, and on success the
transfer-or-create step produces the new store.  A raised exception is
returned as `some error` with the store unchanged (every `raise` in the
source precedes any write). -/
def add_user (st : Store) (sa : EighthScheduledActivity) (user : Nat)
    (request : Option Request) (force : Bool) (now : DateTime) :
    Option SignupError × Store :=
  let force := effective_force request force
  if ! force then
    match signup_checks st sa user request now with
    | some e => (some e, st)
    | none => complete_signup st sa user
  else complete_signup st sa user

/-- The number of signup rows held by user `U` whose scheduled occurrence
lies in block `B`. -/
def count_user_block (st : Store) (U : Nat) (B : EighthBlock) : Nat :=
  (signups_in_block st U B).length

/-- One `add_user` call: its arguments other than the store. -/
structure SignupOp where
  sa : EighthScheduledActivity
  user : Nat
  request : Option Request
  force : Bool
  now : DateTime

/-- Run a sequence of `add_user` calls sequentially from `st`, keeping each
resulting store (errors abort the single call, not the sequence). -/
def run_signups (ops : List SignupOp) (st : Store) : Store :=
  ops.foldl
    (fun st op => (add_user st op.sa op.user op.request op.force op.now).2) st

/-! ### Specification-side definitions

These follow the wording of the specification (capacity resolution, fullness,
the ordered rule chain, the block order) and are compared with the embedded
code in the refinement theorems below. -/

/-- Written from the spec: effective capacity of an occurrence is the numeric
override when present, else the sum of the capacities of the activity's
assigned rooms, with an activity with zero assigned rooms meaning the
unlimited sentinel `-1`. -/
def spec_effective_capacity (sa : EighthScheduledActivity) : Int :=
  match sa.capacity with
  | some c => c
  | none =>
      if sa.activity.rooms = [] then -1
      else (sa.activity.rooms.map EighthRoom.capacity).sum

/-- Written from the spec: `is_full()` is false when the effective capacity
is the unlimited sentinel, else true iff the count of signups for the
occurrence is at least the effective capacity. -/
def spec_is_full (st : Store) (sa : EighthScheduledActivity) : Bool :=
  if spec_effective_capacity sa = -1 then false
  else decide (((eighthsignup_set st sa).length : Int) ≥
    spec_effective_capacity sa)

/-- Written from the spec: the strict `(date, letter)` order on blocks. -/
def EighthBlock.lt (a b : EighthBlock) : Prop :=
  a.date < b.date ∨ (a.date = b.date ∧ a.block_letter < b.block_letter)

instance : DecidableRel EighthBlock.lt := fun a b => by
  unfold EighthBlock.lt; infer_instance

/-- Written from the spec: the eight named checks of the admission
controller, as `(condition, error)` pairs in the fixed documented order.  The
conditions are the code's conditions (the content of the Sticky and OneADay
conditions is settled separately by the C3 and C4 theorems). -/
def signup_rules (st : Store) (sa : EighthScheduledActivity) (user : Nat)
    (request : Option Request) (now : DateTime) :
    List (Bool × SignupError) :=
  [(permission_denied user request, .signupForbidden),
   (sa.block.locked, .blockLocked),
   (sa.cancelled, .scheduledActivityCancelled),
   (sa.activity.deleted, .activityDeleted),
   (is_full st sa, .activityFull),
   (sa.activity.presign && is_too_early_to_signup sa now, .presign),
   (in_a_stickie st sa user, .sticky),
   (sa.activity.one_a_day && in_act st sa user, .oneADay)]

/-- Written from the spec: the first violated rule of the ordered chain, if
any. -/
def first_violated_rule (st : Store) (sa : EighthScheduledActivity)
    (user : Nat) (request : Option Request) (now : DateTime) :
    Option SignupError :=
  ((signup_rules st sa user request now).find? (fun rule => rule.1)).map
    (fun rule => rule.2)

/-- Well-formedness maintained by sequential `add_user` runs from the empty
store: signup primary keys are distinct and below the counter, and every
`(user, block)` pair holds at most one signup row. -/
def StoreInv (st : Store) : Prop :=
  (st.signups.map (fun s => s.id)).Nodup ∧
  (∀ s ∈ st.signups, s.id < st.next_id) ∧
  (∀ U B, count_user_block st U B ≤ 1)

/-! ### Concrete fixtures for witnesses and counterexamples -/

/-- A plain activity: no rooms, every policy flag off. -/
def act_plain : EighthActivity :=
  ⟨"Plain", [], false, false, false, false, false, false, false⟩

/-- A sticky activity. -/
def act_sticky : EighthActivity := { act_plain with name := "Glue", sticky := true }

/-- A `one_a_day` activity. -/
def act_chess : EighthActivity :=
  { act_plain with name := "Chess Club", one_a_day := true }

/-- An activity with two rooms of the default capacity `-1` each, so its
computed capacity is `-2`. -/
def act_neg_rooms : EighthActivity :=
  { act_plain with
      name := "TwoDefaultRooms",
      rooms := [⟨"r1", EighthRoom.default_capacity⟩,
                ⟨"r2", EighthRoom.default_capacity⟩] }

/-- Block A of day 0. -/
def block_a : EighthBlock := ⟨0, 'A', false⟩

/-- Block B of day 0. -/
def block_b : EighthBlock := ⟨0, 'B', false⟩

/-- A locked block on day 0. -/
def block_locked : EighthBlock := ⟨0, 'L', true⟩

/-- The next two blocks after `block_a` on later days. -/
def block_c1 : EighthBlock := ⟨1, 'A', false⟩

/-- The second block after `block_a`. -/
def block_c2 : EighthBlock := ⟨2, 'A', false⟩

/-- A three-block table. -/
def block_db : List EighthBlock := [block_a, block_c1, block_c2]

/-- The sticky activity scheduled into block A. -/
def sa_sticky_a : EighthScheduledActivity := ⟨1, block_a, act_sticky, none, false⟩

/-- The plain activity scheduled into block B. -/
def sa_plain_b : EighthScheduledActivity := ⟨2, block_b, act_plain, none, false⟩

/-- The plain activity scheduled into block A. -/
def sa_plain_a : EighthScheduledActivity := ⟨3, block_a, act_plain, none, false⟩

/-- The chess activity scheduled into block A. -/
def sa_chess_a : EighthScheduledActivity := ⟨4, block_a, act_chess, none, false⟩

/-- The chess activity scheduled into block B (same date as block A). -/
def sa_chess_b : EighthScheduledActivity := ⟨5, block_b, act_chess, none, false⟩

/-- The capacity-`-2` activity scheduled into the locked block. -/
def sa_neg_locked : EighthScheduledActivity :=
  ⟨6, block_locked, act_neg_rooms, none, false⟩

/-- The capacity-`-2` activity scheduled into (unlocked) block A. -/
def sa_neg_a : EighthScheduledActivity := ⟨7, block_a, act_neg_rooms, none, false⟩

/-- The plain activity scheduled into the locked block. -/
def sa_locked : EighthScheduledActivity := ⟨8, block_locked, act_plain, none, false⟩

/-- User 1 signing up for themself, no admin rights, no force parameter. -/
def self_request : Request := ⟨1, false, false⟩

/-- User 2 (not an admin) issuing the request. -/
def other_request : Request := ⟨2, false, false⟩

/-- Noon on day 0. -/
def noon : DateTime := ⟨0, 12, 0⟩

/-- A store in which user 1 already holds a signup for the sticky activity in
block A. -/
def st_sticky : Store := ⟨[⟨0, 1, sa_sticky_a, false⟩], 1⟩

/-- A store in which user 1 already holds a signup for the chess activity in
block A. -/
def st_chess : Store := ⟨[⟨0, 1, sa_chess_a, false⟩], 1⟩

/-! ### Helper lemmas -/

/-- The sum loop of `EighthActivity.capacity` computes the sum of the room
capacities. -/
theorem EighthActivity.capacity_eq_sum (a : EighthActivity)
    (h : a.rooms ≠ []) :
    a.capacity = (a.rooms.map EighthRoom.capacity).sum := by
  unfold EighthActivity.capacity
  rw [if_neg (by simpa using h)]
  rw [List.sum_eq_foldl, List.foldl_map]

/-- The code's check chain returns exactly the first violated rule of the
spec's ordered rule list. -/
theorem signup_checks_eq_first_violated_rule (st : Store)
    (sa : EighthScheduledActivity) (user : Nat) (request : Option Request)
    (now : DateTime) :
    signup_checks st sa user request now =
      first_violated_rule st sa user request now := by
  cases h1 : permission_denied user request <;>
  cases h2 : sa.block.locked <;>
  cases h3 : sa.cancelled <;>
  cases h4 : sa.activity.deleted <;>
  cases h5 : is_full st sa <;>
  cases h6 : sa.activity.presign && is_too_early_to_signup sa now <;>
  cases h7 : in_a_stickie st sa user <;>
  cases h8 : sa.activity.one_a_day && in_act st sa user <;>
  simp [signup_checks, first_violated_rule, signup_rules, List.find?,
    h1, h2, h3, h4, h5, h6, h7, h8]

/-- When the user holds no signup in the target block, the completion step
creates a fresh signup row with the next primary key. -/
theorem complete_signup_of_no_existing (st : Store)
    (sa : EighthScheduledActivity) (user : Nat)
    (h : signups_in_block st user sa.block = []) :
    complete_signup st sa user =
      (none, ⟨st.signups ++ [⟨st.next_id, user, sa, false⟩],
        st.next_id + 1⟩) := by
  unfold complete_signup
  rw [h]

/-- When the user holds exactly one signup in the target block, the
completion step repoints that row at the requested occurrence. -/
theorem complete_signup_of_single (st : Store) (sa : EighthScheduledActivity)
    (user : Nat) (s : EighthSignup)
    (h : signups_in_block st user sa.block = [s]) :
    complete_signup st sa user =
      (none, ⟨st.signups.map (fun t =>
          if t.id = s.id then { t with scheduled_activity := sa } else t),
        st.next_id⟩) := by
  unfold complete_signup
  rw [h]

/-- Under per-pair uniqueness the user's signups in a block form an empty or
singleton list. -/
theorem signups_in_block_cases (st : Store) (user : Nat) (B : EighthBlock)
    (h : count_user_block st user B ≤ 1) :
    signups_in_block st user B = [] ∨
      ∃ s, signups_in_block st user B = [s] := by
  unfold count_user_block at h
  cases hl : signups_in_block st user B with
  | nil => exact Or.inl rfl
  | cons s t =>
      cases t with
      | nil => exact Or.inr ⟨s, rfl⟩
      | cons s2 t2 => rw [hl] at h; simp at h

/-- When the (possibly escalated) force flag is set, or every check passes,
`add_user` reduces to the completion step. -/
theorem add_user_eq_complete (st : Store) (sa : EighthScheduledActivity)
    (user : Nat) (request : Option Request) (force : Bool) (now : DateTime)
    (hok : effective_force request force = true ∨
      signup_checks st sa user request now = none) :
    add_user st sa user request force now = complete_signup st sa user := by
  unfold add_user
  cases hf : effective_force request force with
  | true => simp
  | false =>
      rcases hok with h | h
      · rw [hf] at h; exact absurd h (by simp)
      · simp [h]

/-- Under per-pair uniqueness the completion step never raises
`MultipleObjectsReturned`. -/
theorem complete_signup_fst_eq_none (st : Store)
    (sa : EighthScheduledActivity) (user : Nat)
    (huniq : count_user_block st user sa.block ≤ 1) :
    (complete_signup st sa user).1 = none := by
  rcases signups_in_block_cases st user sa.block huniq with h | ⟨s, h⟩
  · rw [complete_signup_of_no_existing st sa user h]
  · rw [complete_signup_of_single st sa user s h]

/-! ### Claim theorems -/

/-- C7: a scheduled occurrence's effective capacity is its numeric capacity
override when present, else the sum of the capacities of the activity's
assigned rooms (with zero assigned rooms giving the unlimited sentinel
`-1`); and `is_full()` is `false` when the effective capacity is `-1`, else
`true` iff the signup count for the occurrence is at least the effective
capacity.  Stated as: the code's `get_true_capacity`/`is_full` coincide with
the spec-worded `spec_effective_capacity`/`spec_is_full`. -/
theorem true_capacity_and_fullness_match_spec (st : Store)
    (sa : EighthScheduledActivity) :
    get_true_capacity sa = spec_effective_capacity sa ∧
    is_full st sa = spec_is_full st sa := by
  have hcap : get_true_capacity sa = spec_effective_capacity sa := by
    unfold get_true_capacity spec_effective_capacity
    cases hc : sa.capacity with
    | some c => rfl
    | none =>
        by_cases h : sa.activity.rooms = []
        · simp [EighthActivity.capacity, h]
        · rw [EighthActivity.capacity_eq_sum sa.activity h, if_neg h]
  refine ⟨hcap, ?_⟩
  by_cases h : spec_effective_capacity sa = -1 <;>
    simp [is_full, spec_is_full, hcap, h]

/-- C6: with `force=false`, when the actor issuing the request is neither
the target user nor an eighth-period admin, `add_user` raises
`SignupForbidden` and leaves the store untouched — whatever the rest of the
state looks like, i.e. this check preempts every other check and the
signup step. -/
theorem signup_forbidden_when_actor_unauthorized (st : Store)
    (sa : EighthScheduledActivity) (user : Nat) (r : Request) (now : DateTime)
    (hne : r.user ≠ user) (hadmin : r.is_eighth_admin = false) :
    add_user st sa user (some r) false now =
      (some .signupForbidden, st) := by
  have hperm : permission_denied user (some r) = true := by
    simp [permission_denied, hadmin, Ne.symm hne]
  unfold add_user
  simp [effective_force, hadmin, signup_checks, hperm]

/-- Witness for C6: user 1's signup requested by non-admin user 2 is
rejected with `SignupForbidden` and no signup is performed. -/
theorem signup_forbidden_when_actor_unauthorized_witness :
    other_request.user ≠ 1 ∧ other_request.is_eighth_admin = false ∧
    add_user Store.empty sa_plain_a 1 (some other_request) false noon =
      (some .signupForbidden, Store.empty) :=
  ⟨by decide, by decide,
    signup_forbidden_when_actor_unauthorized Store.empty sa_plain_a 1
      other_request noon (by decide) (by decide)⟩

/-- `get_first_upcoming_block` never depends on the time of day: the
`hour < 17` midnight-floor changes only the time fields, which the
`DateField` lookup discards, so at every hour the candidates are exactly
the blocks dated on or after `now`'s calendar day (and `none` is returned
when there are no candidates). -/
theorem get_first_upcoming_block_ignores_time_of_day (db : List EighthBlock)
    (now : DateTime) :
    get_first_upcoming_block db now =
      ((db.filter (fun b => decide (now.day ≤ b.date))).insertionSort
        EighthBlock.le).head? := by
  unfold get_first_upcoming_block date_gte
  by_cases h : now.hour < 17 <;> simp [h]

/-- C9 (code bug): the 17:00 cutoff announced by the code's comment
(`# Show same day if it's before 17:00`) and stated by the claim does not
exist in the program: the `DateField` `date__gte` lookup truncates the
datetime to its date, so the `hour < 17` midnight-floor is a behavioral
no-op.  At 17:01 of day 0 the block dated 0 is still the first upcoming
block — the result does not advance to the earliest block of day 1 — and
it coincides with the 00:00 and 16:59 results. -/
theorem seventeen_hour_cutoff_not_implemented :
    block_a.date = 0 ∧ block_c1.date = 1 ∧
    get_first_upcoming_block block_db ⟨0, 17, 1⟩ = some block_a ∧
    get_first_upcoming_block block_db ⟨0, 17, 1⟩ ≠ some block_c1 ∧
    get_first_upcoming_block block_db ⟨0, 16, 59⟩ = some block_a ∧
    get_first_upcoming_block block_db ⟨0, 0, 0⟩ = some block_a := by
  decide

/-- The `next_blocks` filter holds exactly on blocks strictly after `self`
in the `(date, letter)` order. -/
theorem strictly_after_iff (self b : EighthBlock) :
    self.strictly_after b = true ↔ EighthBlock.lt self b := by
  unfold EighthBlock.strictly_after EighthBlock.lt
  simp only [Bool.or_eq_true, Bool.and_eq_true, decide_eq_true_eq]
  constructor
  · rintro (h | ⟨h1, h2⟩)
    · exact Or.inl h
    · exact Or.inr ⟨h1.symm, h2⟩
  · rintro (h | ⟨h1, h2⟩)
    · exact Or.inl h
    · exact Or.inr ⟨h1.symm, h2⟩

/-- The `previous_blocks` filter holds exactly on blocks strictly before
`self` in the `(date, letter)` order. -/
theorem strictly_before_iff (self b : EighthBlock) :
    self.strictly_before b = true ↔ EighthBlock.lt b self := by
  unfold EighthBlock.strictly_before EighthBlock.lt
  simp only [Bool.or_eq_true, Bool.and_eq_true, decide_eq_true_eq]

/-- C8 (amended): with the sentinel limit `-1`, `next_blocks`/
`previous_blocks` return exactly the blocks strictly after/before `b` in the
`(date, letter)` order, sorted ascending; with a non-negative limit `n` the
Python slice `[:n + 1]` caps the result at `n + 1` blocks (not `n` as the
claim stated), all of them strict neighbors from the table. -/
theorem next_previous_blocks_neighbors (db : List EighthBlock)
    (b : EighthBlock) :
    (∀ x, x ∈ EighthBlock.next_blocks db b (-1) ↔
      x ∈ db ∧ EighthBlock.lt b x) ∧
    (EighthBlock.next_blocks db b (-1)).Sorted EighthBlock.le ∧
    (∀ n : Nat, (EighthBlock.next_blocks db b (n : Int)).length ≤ n + 1 ∧
      ∀ x ∈ EighthBlock.next_blocks db b (n : Int),
        x ∈ db ∧ EighthBlock.lt b x) ∧
    (∀ x, x ∈ EighthBlock.previous_blocks db b (-1) ↔
      x ∈ db ∧ EighthBlock.lt x b) ∧
    (EighthBlock.previous_blocks db b (-1)).Sorted EighthBlock.le ∧
    (∀ n : Nat, (EighthBlock.previous_blocks db b (n : Int)).length ≤ n + 1 ∧
      ∀ x ∈ EighthBlock.previous_blocks db b (n : Int),
        x ∈ db ∧ EighthBlock.lt x b) := by
  have hmem_next : ∀ x,
      x ∈ (db.filter b.strictly_after).insertionSort EighthBlock.le ↔
        x ∈ db ∧ EighthBlock.lt b x := by
    intro x
    rw [(List.perm_insertionSort EighthBlock.le _).mem_iff, List.mem_filter,
      strictly_after_iff]
  have hmem_prev : ∀ x,
      x ∈ (db.filter b.strictly_before).insertionSort EighthBlock.ge ↔
        x ∈ db ∧ EighthBlock.lt x b := by
    intro x
    rw [(List.perm_insertionSort EighthBlock.ge _).mem_iff, List.mem_filter,
      strictly_before_iff]
  have htoNat : ∀ n : Nat, ((n : Int) + 1).toNat = n + 1 := by
    intro n; omega
  refine ⟨?_, ?_, ?_, ?_, ?_, ?_⟩
  · intro x
    rw [EighthBlock.next_blocks, if_pos rfl]
    exact hmem_next x
  · rw [EighthBlock.next_blocks, if_pos rfl]
    exact List.sorted_insertionSort EighthBlock.le _
  · intro n
    rw [EighthBlock.next_blocks, if_neg (by omega),
      htoNat n]
    constructor
    · rw [List.length_take]
      exact min_le_left _ _
    · intro x hx
      exact (hmem_next x).mp (List.mem_of_mem_take hx)
  · intro x
    rw [EighthBlock.previous_blocks, if_pos rfl, List.mem_reverse]
    exact hmem_prev x
  · rw [EighthBlock.previous_blocks, if_pos rfl]
    rw [List.Sorted, List.pairwise_reverse]
    exact List.sorted_insertionSort EighthBlock.ge _
  · intro n
    rw [EighthBlock.previous_blocks, if_neg (by omega),
      htoNat n]
    constructor
    · rw [List.length_reverse, List.length_take]
      exact min_le_left _ _
    · intro x hx
      rw [List.mem_reverse] at hx
      exact (hmem_prev x).mp (List.mem_of_mem_take hx)

/-- Counterexample for C8 as stated: `block_a` has the two strict successors
`block_c1` and `block_c2` in the table, and `next_blocks` with the
non-negative limit `1` returns both of them — more than `1` result. -/
theorem next_blocks_quantity_counterexample :
    EighthBlock.lt block_a block_c1 ∧ EighthBlock.lt block_a block_c2 ∧
    EighthBlock.next_blocks block_db block_a 1 = [block_c1, block_c2] ∧
    ¬ ((EighthBlock.next_blocks block_db block_a 1).length ≤ 1) := by
  decide

/-- Witness for C8 (amended): the theorem instantiated on the concrete
three-block table. -/
theorem next_previous_blocks_neighbors_witness :
    block_c1 ∈ EighthBlock.next_blocks block_db block_a (-1) ↔
      block_c1 ∈ block_db ∧ EighthBlock.lt block_a block_c1 :=
  (next_previous_blocks_neighbors block_db block_a).1 block_c1

/-- C2: whenever the signup step is reached — all checks pass, or any force
flag is set (`force` bypasses checks 1–8 but never this step) — `add_user`
repoints the user's existing signup of this block at the requested
occurrence in place (same row, same primary keys, no new row) when one
exists, and creates exactly one fresh signup row otherwise. -/
theorem add_user_transfer_or_create (st : Store)
    (sa : EighthScheduledActivity) (user : Nat) (request : Option Request)
    (force : Bool) (now : DateTime)
    (huniq : count_user_block st user sa.block ≤ 1)
    (hok : effective_force request force = true ∨
      signup_checks st sa user request now = none) :
    (add_user st sa user request force now).1 = none ∧
    ((∃ s, s ∈ st.signups ∧ s.user = user ∧
        s.scheduled_activity.block = sa.block ∧
        (add_user st sa user request force now).2 =
          ⟨st.signups.map (fun t => if t.id = s.id then
              { t with scheduled_activity := sa } else t), st.next_id⟩) ∨
     ((∀ s ∈ st.signups,
        ¬(s.user = user ∧ s.scheduled_activity.block = sa.block)) ∧
       (add_user st sa user request force now).2 =
         ⟨st.signups ++ [⟨st.next_id, user, sa, false⟩],
           st.next_id + 1⟩)) := by
  rw [add_user_eq_complete st sa user request force now hok]
  rcases signups_in_block_cases st user sa.block huniq with h | ⟨s, h⟩
  · rw [complete_signup_of_no_existing st sa user h]
    refine ⟨rfl, Or.inr ⟨?_, rfl⟩⟩
    intro s hs hcontra
    have : ∀ a ∈ st.signups,
        ¬((decide (a.user = user) &&
          decide (a.scheduled_activity.block = sa.block)) = true) :=
      List.filter_eq_nil_iff.mp h
    exact this s hs (by simp [hcontra.1, hcontra.2])
  · rw [complete_signup_of_single st sa user s h]
    have hs_mem : s ∈ signups_in_block st user sa.block := by
      rw [h]; exact List.mem_singleton_self s
    have := List.mem_filter.mp hs_mem
    refine ⟨rfl, Or.inl ⟨s, this.1, ?_, ?_, rfl⟩⟩
    · have := this.2
      simp only [Bool.and_eq_true, decide_eq_true_eq] at this
      exact this.1
    · have := this.2
      simp only [Bool.and_eq_true, decide_eq_true_eq] at this
      exact this.2

/-- Witness for C2: user 1 already holds the signup row with id 0 in block
A; a forced `add_user` for a different occurrence of block A succeeds (force
does not skip the transfer step) without raising. -/
theorem add_user_transfer_or_create_witness :
    count_user_block st_sticky 1 sa_plain_a.block ≤ 1 ∧
    effective_force (some self_request) true = true ∧
    (add_user st_sticky sa_plain_a 1 (some self_request) true noon).1 =
      none :=
  ⟨by decide, by decide,
    (add_user_transfer_or_create st_sticky sa_plain_a 1 (some self_request)
      true noon (by decide) (Or.inl (by decide))).1⟩

/-- C5: a failing `add_user` call (on a store satisfying the per-pair
uniqueness invariant) mutates nothing — the store is returned unchanged —
and the error raised is exactly the first violated rule in the fixed check
order `SignupForbidden`, `BlockLocked`, `ScheduledActivityCancelled`,
`ActivityDeleted`, `ActivityFull`, `Presign` (the spec's `PresignTooEarly`),
`Sticky`, `OneADay`. -/
theorem add_user_failure_first_violated (st : Store)
    (sa : EighthScheduledActivity) (user : Nat) (request : Option Request)
    (force : Bool) (now : DateTime) (e : SignupError)
    (huniq : count_user_block st user sa.block ≤ 1)
    (herr : (add_user st sa user request force now).1 = some e) :
    (add_user st sa user request force now).2 = st ∧
    first_violated_rule st sa user request now = some e := by
  have hcs := complete_signup_fst_eq_none st sa user huniq
  cases hf : effective_force request force with
  | true =>
      rw [add_user_eq_complete st sa user request force now (Or.inl hf),
        hcs] at herr
      cases herr
  | false =>
      cases hsc : signup_checks st sa user request now with
      | none =>
          rw [add_user_eq_complete st sa user request force now (Or.inr hsc),
            hcs] at herr
          cases herr
      | some e0 =>
          have heq : add_user st sa user request force now = (some e0, st) := by
            unfold add_user
            simp [hf, hsc]
          rw [heq] at herr
          simp only [Option.some.injEq] at herr
          rw [heq]
          exact ⟨rfl, by
            rw [← signup_checks_eq_first_violated_rule, hsc, herr]⟩

/-- Witness for C5: a non-force signup into a locked block fails with
`BlockLocked`, the first violated rule, and the store is unchanged. -/
theorem add_user_failure_first_violated_witness :
    count_user_block Store.empty 1 sa_locked.block ≤ 1 ∧
    (add_user Store.empty sa_locked 1 (some self_request) false noon).1 =
      some .blockLocked ∧
    ((add_user Store.empty sa_locked 1 (some self_request) false noon).2 =
        Store.empty ∧
      first_violated_rule Store.empty sa_locked 1 (some self_request) noon =
        some .blockLocked) :=
  ⟨by decide, by decide,
    add_user_failure_first_violated Store.empty sa_locked 1
      (some self_request) false noon .blockLocked (by decide) (by decide)⟩

/-- Filtering a mapped list keeps its length when the map does not change
the predicate's verdict on any member. -/
theorem length_filter_map_eq {α : Type} (f : α → α) (p : α → Bool)
    (l : List α) (h : ∀ t ∈ l, p (f t) = p t) :
    (List.filter p (List.map f l)).length = (List.filter p l).length := by
  induction l with
  | nil => rfl
  | cons a l ih =>
      simp only [List.map_cons, List.filter_cons]
      rw [h a (List.mem_cons_self a l)]
      cases hpa : p a <;>
        simp [ih (fun t ht => h t (List.mem_cons_of_mem a ht))]

/-- The completion step preserves the store invariant. -/
theorem complete_signup_preserves_inv (st : Store)
    (sa : EighthScheduledActivity) (user : Nat) (hinv : StoreInv st) :
    StoreInv (complete_signup st sa user).2 := by
  obtain ⟨hnd, hlt, hcnt⟩ := hinv
  rcases signups_in_block_cases st user sa.block (hcnt user sa.block) with
    h | ⟨s, h⟩
  · rw [complete_signup_of_no_existing st sa user h]
    refine ⟨?_, ?_, ?_⟩
    · show ((st.signups ++
          [(⟨st.next_id, user, sa, false⟩ : EighthSignup)]).map
        (fun s : EighthSignup => s.id)).Nodup
      rw [List.map_append, List.nodup_append]
      refine ⟨hnd, List.nodup_singleton _, ?_⟩
      intro x hx hx'
      simp only [List.map_cons, List.map_nil, List.mem_singleton] at hx'
      subst hx'
      rcases List.mem_map.mp hx with ⟨t, ht, hid⟩
      exact absurd hid (Nat.ne_of_lt (hlt t ht))
    · intro t ht
      rcases List.mem_append.mp ht with ht | ht
      · exact Nat.lt_succ_of_lt (hlt t ht)
      · simp only [List.mem_singleton] at ht
        subst ht
        exact Nat.lt_succ_self _
    · intro U B
      show ((st.signups ++
          [(⟨st.next_id, user, sa, false⟩ : EighthSignup)]).filter
        (fun t : EighthSignup => decide (t.user = U) &&
          decide (t.scheduled_activity.block = B))).length ≤ 1
      rw [List.filter_append, List.length_append]
      by_cases hp : (decide (user = U) && decide (sa.block = B)) = true
      · simp only [Bool.and_eq_true, decide_eq_true_eq] at hp
        obtain ⟨hU, hB⟩ := hp
        subst hU
        subst hB
        have h0 : (st.signups.filter (fun t => decide (t.user = user) &&
            decide (t.scheduled_activity.block = sa.block))).length = 0 := by
          have : signups_in_block st user sa.block = [] := h
          unfold signups_in_block at this
          rw [this]
          rfl
        rw [h0]
        simp [List.length_filter_le]
      · have h1 : ([(⟨st.next_id, user, sa, false⟩ : EighthSignup)].filter
            (fun t => decide (t.user = U) &&
              decide (t.scheduled_activity.block = B))).length = 0 := by
          simp only [List.filter, hp]
          rfl
        rw [h1, Nat.add_zero]
        exact hcnt U B
  · rw [complete_signup_of_single st sa user s h]
    have hs_mem : s ∈ signups_in_block st user sa.block := by
      rw [h]; exact List.mem_singleton_self s
    obtain ⟨hsl, hp⟩ := List.mem_filter.mp hs_mem
    simp only [Bool.and_eq_true, decide_eq_true_eq] at hp
    have hid : ∀ t : EighthSignup,
        ((if t.id = s.id then { t with scheduled_activity := sa } else t) :
          EighthSignup).id = t.id := by
      intro t
      by_cases hts : t.id = s.id <;> simp [hts]
    have hmap_id : ((st.signups.map (fun t => if t.id = s.id then
          { t with scheduled_activity := sa } else t)).map
        (fun x => x.id)) = st.signups.map (fun x => x.id) := by
      rw [List.map_map]
      exact List.map_congr_left (fun t _ => hid t)
    refine ⟨?_, ?_, ?_⟩
    · show ((st.signups.map (fun t => if t.id = s.id then
        { t with scheduled_activity := sa } else t)).map
          (fun s => s.id)).Nodup
      rw [hmap_id]
      exact hnd
    · intro t ht
      rcases List.mem_map.mp ht with ⟨t0, ht0, rfl⟩
      show ((if t0.id = s.id then { t0 with scheduled_activity := sa }
        else t0) : EighthSignup).id < st.next_id
      rw [hid t0]
      exact hlt t0 ht0
    · intro U B
      show ((st.signups.map (fun t => if t.id = s.id then
          { t with scheduled_activity := sa } else t)).filter
        (fun t => decide (t.user = U) &&
          decide (t.scheduled_activity.block = B))).length ≤ 1
      rw [length_filter_map_eq]
      · exact hcnt U B
      · intro t ht
        by_cases hts : t.id = s.id
        · have ht_eq : t = s := List.inj_on_of_nodup_map hnd ht hsl hts
          subst ht_eq
          simp [hp.2]
        · simp [hts]

/-- A single `add_user` call preserves the store invariant (failures leave
the store untouched). -/
theorem add_user_preserves_inv (st : Store) (sa : EighthScheduledActivity)
    (user : Nat) (request : Option Request) (force : Bool) (now : DateTime)
    (hinv : StoreInv st) :
    StoreInv (add_user st sa user request force now).2 := by
  cases hf : effective_force request force with
  | true =>
      rw [add_user_eq_complete st sa user request force now (Or.inl hf)]
      exact complete_signup_preserves_inv st sa user hinv
  | false =>
      cases hsc : signup_checks st sa user request now with
      | none =>
          rw [add_user_eq_complete st sa user request force now (Or.inr hsc)]
          exact complete_signup_preserves_inv st sa user hinv
      | some e =>
          have heq : add_user st sa user request force now = (some e, st) := by
            unfold add_user
            simp [hf, hsc]
          rw [heq]
          exact hinv

/-- A sequential run of `add_user` calls preserves the store invariant. -/
theorem run_signups_preserves_inv (ops : List SignupOp) (st : Store)
    (hinv : StoreInv st) : StoreInv (run_signups ops st) := by
  induction ops generalizing st with
  | nil => exact hinv
  | cons op ops ih =>
      show StoreInv (run_signups (op :: ops) st)
      unfold run_signups
      rw [List.foldl_cons]
      exact ih _ (add_user_preserves_inv st op.sa op.user op.request
        op.force op.now hinv)

/-- The empty store satisfies the invariant. -/
theorem store_empty_inv : StoreInv Store.empty := by
  refine ⟨List.nodup_nil, ?_, ?_⟩
  · intro s hs
    cases hs
  · intro U B
    show (([] : List EighthSignup).filter _).length ≤ 1
    simp

/-- C1: after any finite sequence of sequential `add_user` calls starting
from the empty signup store, every user holds at most one signup per block:
for every user `U` and block `B` there is at most one `EighthSignup` row
with `user = U` whose scheduled occurrence lies in `B`. -/
theorem sequential_add_user_per_block_uniqueness (ops : List SignupOp)
    (U : Nat) (B : EighthBlock) :
    count_user_block (run_signups ops Store.empty) U B ≤ 1 :=
  (run_signups_preserves_inv ops Store.empty store_empty_inv).2.2 U B

/-- C3 (code bug): the sticky lock is not enforced.  User 1 already holds a
signup for the sticky activity in block A of day 0, yet a non-force
`add_user` for a different (non-sticky) activity in block B of the same
date succeeds and creates the signup instead of raising `Sticky` — because
the code filters `self.eighthsignup_set` (signups for the requested
occurrence only) instead of all of the user's signups. -/
theorem sticky_lock_not_enforced :
    act_sticky.sticky = true ∧
    sa_sticky_a.activity = act_sticky ∧
    (⟨0, 1, sa_sticky_a, false⟩ : EighthSignup) ∈ st_sticky.signups ∧
    sa_sticky_a.block.date = sa_plain_b.block.date ∧
    sa_sticky_a.activity ≠ sa_plain_b.activity ∧
    effective_force (some self_request) false = false ∧
    add_user st_sticky sa_plain_b 1 (some self_request) false noon =
      (none, ⟨[⟨0, 1, sa_sticky_a, false⟩, ⟨1, 1, sa_plain_b, false⟩],
        2⟩) := by
  decide

/-- C4 (code bug): the one-a-day constraint is never enforced.  The chess
activity has `one_a_day = true` and is scheduled into blocks A and B of the
same date; user 1 already holds the block-A signup, yet the non-force
`add_user` for the block-B occurrence succeeds instead of raising `OneADay`
— the query excludes `scheduled_activity__block=self.block` from
`self.eighthsignup_set`, whose rows all lie in `self.block`, so the check
is dead code. -/
theorem one_a_day_not_enforced :
    act_chess.one_a_day = true ∧
    sa_chess_a.activity = act_chess ∧ sa_chess_b.activity = act_chess ∧
    sa_chess_a.block.date = sa_chess_b.block.date ∧
    sa_chess_a.block ≠ sa_chess_b.block ∧
    (⟨0, 1, sa_chess_a, false⟩ : EighthSignup) ∈ st_chess.signups ∧
    effective_force (some self_request) false = false ∧
    add_user st_chess sa_chess_b 1 (some self_request) false noon =
      (none, ⟨[⟨0, 1, sa_chess_a, false⟩, ⟨1, 1, sa_chess_b, false⟩],
        2⟩) := by
  decide

/-- When the occurrence is full, some check of the chain fires, and when
the four checks before the fullness check all pass the raised error is
exactly `ActivityFull`. -/
theorem signup_checks_of_full (st : Store) (sa : EighthScheduledActivity)
    (user : Nat) (request : Option Request) (now : DateTime)
    (hfull : is_full st sa = true) :
    (signup_checks st sa user request now).isSome = true ∧
    (permission_denied user request = false → sa.block.locked = false →
      sa.cancelled = false → sa.activity.deleted = false →
      signup_checks st sa user request now = some .activityFull) := by
  constructor
  · unfold signup_checks
    cases h1 : permission_denied user request <;>
      cases h2 : sa.block.locked <;>
      cases h3 : sa.cancelled <;>
      cases h4 : sa.activity.deleted <;>
      simp [h1, h2, h3, h4, hfull]
  · intro h1 h2 h3 h4
    unfold signup_checks
    simp [h1, h2, h3, h4, hfull]

/-- C10 (amended): an occurrence whose true capacity is negative but not
`-1` (e.g. two rooms of the default capacity `-1` summing to `-2`) is
always full, even with zero signups; every non-force `add_user` call for it
fails, and it fails with `ActivityFull` whenever the permission, locked,
cancelled and deleted checks pass (an earlier check may otherwise win, which
is the one correction to the claim). -/
theorem negative_capacity_blocks_all_signups (st : Store)
    (sa : EighthScheduledActivity) (user : Nat) (request : Option Request)
    (force : Bool) (now : DateTime)
    (hneg : get_true_capacity sa < 0) (hne : get_true_capacity sa ≠ -1)
    (hforce : effective_force request force = false) :
    is_full st sa = true ∧
    (add_user st sa user request force now).1.isSome = true ∧
    (permission_denied user request = false → sa.block.locked = false →
      sa.cancelled = false → sa.activity.deleted = false →
      (add_user st sa user request force now).1 = some .activityFull) := by
  have hfull : is_full st sa = true := by
    unfold is_full
    rw [if_pos hne]
    simp only [ge_iff_le, decide_eq_true_eq]
    omega
  obtain ⟨hsome, hexact⟩ :=
    signup_checks_of_full st sa user request now hfull
  obtain ⟨e, he⟩ := Option.isSome_iff_exists.mp hsome
  have haddeq : add_user st sa user request force now = (some e, st) := by
    unfold add_user
    simp [hforce, he]
  refine ⟨hfull, by rw [haddeq]; rfl, ?_⟩
  intro h1 h2 h3 h4
  rw [haddeq]
  rw [hexact h1 h2 h3 h4] at he
  simp only [Option.some.injEq] at he
  rw [he]

/-- Witness for C10 (amended): the capacity-`-2` occurrence in the unlocked
block A — full on the empty store, and the self-signup fails with
`ActivityFull`. -/
theorem negative_capacity_blocks_all_signups_witness :
    get_true_capacity sa_neg_a < 0 ∧ get_true_capacity sa_neg_a ≠ -1 ∧
    effective_force (some self_request) false = false ∧
    (is_full Store.empty sa_neg_a = true ∧
      (add_user Store.empty sa_neg_a 1 (some self_request) false
        noon).1.isSome = true ∧
      (permission_denied 1 (some self_request) = false →
        sa_neg_a.block.locked = false → sa_neg_a.cancelled = false →
        sa_neg_a.activity.deleted = false →
        (add_user Store.empty sa_neg_a 1 (some self_request) false
          noon).1 = some .activityFull)) :=
  ⟨by decide, by decide, by decide,
    negative_capacity_blocks_all_signups Store.empty sa_neg_a 1
      (some self_request) false noon (by decide) (by decide) (by decide)⟩

/-- Counterexample for C10 as stated: the capacity-`-2` occurrence sits in
a locked block; the non-force call fails with `BlockLocked`, not
`ActivityFull`. -/
theorem negative_capacity_counterexample :
    get_true_capacity sa_neg_locked = -2 ∧
    effective_force (some self_request) false = false ∧
    (add_user Store.empty sa_neg_locked 1 (some self_request) false
      noon).1 = some .blockLocked ∧
    (add_user Store.empty sa_neg_locked 1 (some self_request) false
      noon).1 ≠ some .activityFull := by
  decide
